import Mathlib

/-!
A verification development for the ip2x IP2Location/IP2Proxy database reader.

The Go source (db.go) is shallowly embedded: machine integers (uint8,
uint32, uint64) become `Nat` with explicit `% 2 ^ w` at the points where the
Go code can wrap; byte slices become `List Nat` (each element a byte value);
Go's two-value `(T, error)` returns become pairs with `Option Err`;
`io.ReaderAt` becomes a pure function from (offset, length) to the bytes
read plus an optional error (a partial read at EOF returns the prefix that
was read together with `Err.eof`, matching the `ReadAt` contract used by the
code).  Bitwise `x & 0xffffffff` is written `x % 2 ^ 32`, `x >> k` is
written `x / 2 ^ k`, `x << k` is `x * 2 ^ k`, and `x | c` for a constant `c`
whose bits are disjoint from `x`'s range is written `x + c`.  Go's `panic`
in unreachable default branches is modelled by the distinguished error value
`Err.unhandledType`.  The binary-search loop in `DB.Lookup` is not
structurally terminating (its uint32 bounds can wrap), so it is embedded
with explicit fuel; `DB.Lookup` runs it with more fuel than any terminating
execution of the deterministic loop can consume (the loop state is a pair of
uint32s, so a run that makes more than `2 ^ 64` iterations revisits a state
and diverges), and returns `none` exactly when the Go loop diverges.
-/

namespace Ip2x

/-- Errors visible to the embedded code: `eof` models `io.EOF`,
`unexpectedEOF` models `io.ErrUnexpectedEOF`, `other n` is any other reader
error (identified by an opaque code), and `unhandledType` marks the
`panic("unhandled dbft")` branches of `Record.get`. -/
inductive Err where
  | eof
  | unexpectedEOF
  | other (code : Nat)
  | unhandledType
deriving DecidableEq, Repr

/-- A positional reader (`io.ReaderAt`): given an absolute byte offset and a
requested length, returns the bytes actually read and an optional error.
When the error is `none` the full requested length was read. -/
def Reader : Type := Nat → Nat → List Nat × Option Err

/-- The `uint128` struct from db.go: two uint64 halves. -/
structure U128 where
  hi : Nat
  lo : Nat
deriving DecidableEq, Repr

/-- `uint128.Less` from db.go: `n.hi < v.hi || (n.hi == v.hi && n.lo < v.lo)`. -/
def U128.Less (n v : U128) : Bool :=
  Nat.blt n.hi v.hi || (Nat.beq n.hi v.hi && Nat.blt n.lo v.lo)

/-- `as_le_u32` from db.go: the uint32 represented by the little-endian
first four bytes. -/
def as_le_u32 (b : List Nat) : Nat :=
  b.getD 0 0 + b.getD 1 0 * 2 ^ 8 + b.getD 2 0 * 2 ^ 16 + b.getD 3 0 * 2 ^ 24

/-- `as_le_u64` from db.go: the uint64 represented by the little-endian
first eight bytes. -/
def as_le_u64 (b : List Nat) : Nat :=
  b.getD 0 0 + b.getD 1 0 * 2 ^ 8 + b.getD 2 0 * 2 ^ 16 + b.getD 3 0 * 2 ^ 24 +
    b.getD 4 0 * 2 ^ 32 + b.getD 5 0 * 2 ^ 40 + b.getD 6 0 * 2 ^ 48 + b.getD 7 0 * 2 ^ 56

/-- `as_be_u128` from db.go: low little-endian uint64 half at offset 0, high
half at offset 8. -/
def as_be_u128 (b : List Nat) : U128 :=
  U128.mk (as_le_u64 (b.drop 8)) (as_le_u64 b)

/-- `as_u32_u128` from db.go. -/
def as_u32_u128 (u32 : Nat) : U128 :=
  U128.mk 0 u32

/-- `unmap` from db.go: unwraps 6to4 and Teredo encodings to IPv4-mapped,
then IPv4-mapped to a bare 4-byte address, returning the address and the ip
byte length (4 or 16).  `a.hi>>48` is `a.hi / 2^48`; `^a.lo` (uint64
complement) is `2^64 - 1 - a.lo`; `x & 0xffffffff` is `x % 2^32`; the `|
0xffff00000000` sets bits disjoint from the masked operand, hence `+`. -/
def unmap (a : U128) : U128 × Nat :=
  let a' :=
    if a.hi / 2 ^ 48 = 0x2002 then
      U128.mk 0 ((a.hi / 2 ^ 16) % 2 ^ 32 + 0xffff00000000)
    else if a.hi / 2 ^ 32 = 0x20010000 then
      U128.mk 0 ((2 ^ 64 - 1 - a.lo % 2 ^ 64) % 2 ^ 32 + 0xffff00000000)
    else a
  if a'.hi = 0 ∧ a'.lo / 2 ^ 32 = 0xffff then
    (U128.mk a'.hi (a'.lo % 2 ^ 32), 4)
  else
    (a', 16)

/-- A `net/netip.Addr` as seen by `DB.Lookup` through `as_ip6_uint8`: a
validity flag plus the 128-bit IPv4-mapped-or-native-IPv6 form (netip stores
IPv4 addresses internally in IPv4-mapped form). -/
structure NetipAddr where
  valid : Bool
  u : U128
deriving DecidableEq, Repr

/-- The `Record` struct from db.go, minus the stored `io.ReaderAt` (which the
embedding instead passes to each accessor explicitly): product code, database
type, and the row's non-IPFrom bytes (`none` models a nil slice). -/
structure Record where
  p : Nat
  t : Nat
  d : Option (List Nat)
deriving DecidableEq, Repr

/-- The zero `Record{}` value. -/
def Record.invalid : Record := ⟨0, 0, none⟩

/-- `Record.IsValid` from db.go: `r.d != nil`. -/
def Record.IsValid (r : Record) : Bool :=
  r.d.isSome

/-- The header fields of the `DB` struct from db.go. -/
structure DB where
  dbtype : Nat
  dbcolumn : Nat
  dbyear : Nat
  dbmonth : Nat
  dbday : Nat
  ip4count : Nat
  ip4base : Nat
  ip6count : Nat
  ip6base : Nat
  ip4idx : Nat
  ip6idx : Nat
  prcode : Nat
  prtype : Nat
  filesize : Nat
deriving DecidableEq, Repr

/-- The binary-search loop of `DB.Lookup` (db.go lines 240-281), with
explicit fuel.  Each iteration: if `lower <= upper`, compute
`mid = (lower+upper)/2` in uint32, read the row (columns plus the next row's
IPFrom) at `mid*colsize + base - 1` (uint32), decode `IPFrom`/`IPTo` by
address family, and either narrow the window (`upper = mid-1` /
`lower = mid+1`, both uint32, so they wrap at 0 resp. 2^32-1) or stop.
Returns `none` when the fuel runs out. -/
def searchGo (R : Reader) (ip : U128) (iplen colsize base prcode dbtype : Nat) :
    Nat → Nat → Nat → Option (Record × Option Err)
  | 0, _, _ => none
  | fuel + 1, lower, upper =>
    if lower ≤ upper then
      let mid := ((lower + upper) % 2 ^ 32) / 2
      let off := (mid * colsize + base + (2 ^ 32 - 1)) % 2 ^ 32
      match R off (colsize + iplen) with
      | (_, some e) => some (Record.invalid, some e)
      | (row, none) =>
        let ipfrom := if iplen = 4 then as_u32_u128 (as_le_u32 row) else as_be_u128 row
        let ipto := if iplen = 4 then as_u32_u128 (as_le_u32 (row.drop colsize))
                    else as_be_u128 (row.drop colsize)
        if U128.Less ip ipfrom then
          searchGo R ip iplen colsize base prcode dbtype fuel lower ((mid + (2 ^ 32 - 1)) % 2 ^ 32)
        else if ipto == ip || U128.Less ipto ip then
          searchGo R ip iplen colsize base prcode dbtype fuel ((mid + 1) % 2 ^ 32) upper
        else
          some ({ p := prcode, t := dbtype, d := some ((row.drop iplen).take (colsize - iplen)) },
            none)
    else
      some (Record.invalid, none)

/-- Fuel with which `DB.Lookup` runs the binary-search loop: more iterations
than the deterministic loop can make without revisiting one of its at most
`2 ^ 64` distinct `(lower, upper)` states, so the result is `none` exactly
when the Go loop diverges. -/
def lookupFuel : Nat := 2 ^ 64 + 1

/-- `DB.Lookup` from db.go (lines 201-283).  Returns `none` when the Go code
would loop forever; otherwise `some (r, err)` mirroring Go's `(r, err)`.
`colsize` reflects the uint8 wrap of `db.dbcolumn - 1`; the index entry
offset and all row offsets are uint32 computations; the `- 1` terms are the
uint32 additions of `2^32 - 1`. -/
def DB.Lookup (db : DB) (R : Reader) (a : NetipAddr) : Option (Record × Option Err) :=
  if !a.valid then
    some (Record.invalid, none)
  else
    let ul := unmap a.u
    let ip := ul.1
    let iplen := ul.2
    let colsize := iplen + ((db.dbcolumn + 255) % 256) * 4
    let idx := if iplen = 4 then db.ip4idx else db.ip6idx
    let base := if iplen = 4 then db.ip4base else db.ip6base
    let count := if iplen = 4 then db.ip4count else db.ip6count
    let pfx := if iplen = 4 then (ip.lo / 2 ^ 16 * 8) % 2 ^ 32 else (ip.hi / 2 ^ 48 * 8) % 2 ^ 32
    let off0 := if idx > 0 then (idx + pfx + (2 ^ 32 - 1)) % 2 ^ 32 else 0
    if off0 ≠ 0 then
      match R off0 8 with
      | (_, some e) => some (Record.invalid, some e)
      | (bs, none) =>
        searchGo R ip iplen colsize base db.prcode db.dbtype lookupFuel
          (as_le_u32 bs) (as_le_u32 (bs.drop 4))
    else
      searchGo R ip iplen colsize base db.prcode db.dbtype lookupFuel
        0 (if idx > 0 then 0 else count)

/-- Modelled from the spec: the code-generated descriptor tables
(`dbfds`, `dbexpcols` and the `dbfd` accessors) are not present in the
source tree — only the code generator and the schema text in db.go are.
This is the generator's verbatim packing for an entry: the 32-bit
complement of `column << 12 | ptr << 4 | type`, where `ptr` is `0xFF` for an
inline column, and `type` is 0 for `str`, 1 for `f32`. -/
def mkdbfd (col ptr ty : Nat) : Nat :=
  2 ^ 32 - 1 - (col * 2 ^ 12 + ptr * 2 ^ 4 + ty)

/-- The uint32 complement `^d` used by the generated `dbfd` accessors. -/
def compl32 (d : Nat) : Nat :=
  2 ^ 32 - 1 - d % 2 ^ 32

/-- Generated `dbfd.Column`: `uint32((^d>>12)&0xFF)`. -/
def fdColumn (d : Nat) : Nat :=
  compl32 d / 2 ^ 12 % 2 ^ 8

/-- Generated `dbfd.PtrOffset`: `uint8((^d>>4)&0xFF)`; `0xFF` marks an
inline column. -/
def fdPtrOffset (d : Nat) : Nat :=
  compl32 d / 2 ^ 4 % 2 ^ 8

/-- Generated `dbfd.Type`: `dbft((^d>>0)&0xF)`; 0 is `dbft_string`, 1 is
`dbft_f32le`. -/
def fdType (d : Nat) : Nat :=
  compl32 d % 2 ^ 4

/-- Generated `dbfd.IsValid`: `d != 0`. -/
def fdIsValid (d : Nat) : Bool :=
  d ≠ 0

/-- The `DBField` constants, numbered 1.. in their declaration order in the
schema file embedded in db.go. -/
def AddressType : Nat := 1
def AreaCode : Nat := 2
def ASfield : Nat := 3
def ASN : Nat := 4
def Category : Nat := 5
def City : Nat := 6
def CountryCode : Nat := 7
def CountryName : Nat := 8
def Domain : Nat := 9
def Elevation : Nat := 10
def IDDCode : Nat := 11
def ISP : Nat := 12
def LastSeen : Nat := 13
def Latitude : Nat := 14
def Longitude : Nat := 15
def MCC : Nat := 16
def MNC : Nat := 17
def MobileBrand : Nat := 18
def NetSpeed : Nat := 19
def Provider : Nat := 20
def ProxyType : Nat := 21
def Region : Nat := 22
def Threat : Nat := 23
def Timezone : Nat := 24
def UsageType : Nat := 25
def WeatherStationCode : Nat := 26
def WeatherStationName : Nat := 27
def Zipcode : Nat := 28

/-- Modelled from the spec: the IP2Location schema matrix from db.go
(product code 1, db types 1-25).  Each entry is
`(field, storage type, pointer bits, column number per db type; 0 = absent)`,
exactly as the `codegen.Product` text in db.go declares it: `str@N` is a
pointer column with offset `N`, `f32` is an inline column (pointer bits
`0xFF`). -/
def ip2locationSchema : List (Nat × Nat × Nat × List Nat) := [
  (CountryCode, 0, 0, [2, 2, 2, 2, 2, 2, 2, 2, 2, 2, 2, 2, 2, 2, 2, 2, 2, 2, 2, 2, 2, 2, 2, 2, 2]),
  (CountryName, 0, 3, [2, 2, 2, 2, 2, 2, 2, 2, 2, 2, 2, 2, 2, 2, 2, 2, 2, 2, 2, 2, 2, 2, 2, 2, 2]),
  (Region, 0, 0, [0, 0, 3, 3, 3, 3, 3, 3, 3, 3, 3, 3, 3, 3, 3, 3, 3, 3, 3, 3, 3, 3, 3, 3, 3]),
  (City, 0, 0, [0, 0, 4, 4, 4, 4, 4, 4, 4, 4, 4, 4, 4, 4, 4, 4, 4, 4, 4, 4, 4, 4, 4, 4, 4]),
  (Latitude, 1, 0xFF, [0, 0, 0, 0, 5, 5, 0, 5, 5, 5, 5, 5, 5, 5, 5, 5, 5, 5, 5, 5, 5, 5, 5, 5, 5]),
  (Longitude, 1, 0xFF, [0, 0, 0, 0, 6, 6, 0, 6, 6, 6, 6, 6, 6, 6, 6, 6, 6, 6, 6, 6, 6, 6, 6, 6, 6]),
  (Zipcode, 0, 0, [0, 0, 0, 0, 0, 0, 0, 0, 7, 7, 7, 7, 0, 7, 7, 7, 0, 7, 0, 7, 7, 7, 0, 7, 7]),
  (Timezone, 0, 0, [0, 0, 0, 0, 0, 0, 0, 0, 0, 0, 8, 8, 7, 8, 8, 8, 7, 8, 0, 8, 8, 8, 0, 8, 8]),
  (ISP, 0, 0, [0, 3, 0, 5, 0, 7, 5, 7, 0, 8, 0, 9, 0, 9, 0, 9, 0, 9, 7, 9, 0, 9, 7, 9, 9]),
  (Domain, 0, 0, [0, 0, 0, 0, 0, 0, 6, 8, 0, 9, 0, 10, 0, 10, 0, 10, 0, 10, 8, 10, 0, 10, 8, 10, 10]),
  (NetSpeed, 0, 0, [0, 0, 0, 0, 0, 0, 0, 0, 0, 0, 0, 0, 8, 11, 0, 11, 8, 11, 0, 11, 0, 11, 0, 11, 11]),
  (IDDCode, 0, 0, [0, 0, 0, 0, 0, 0, 0, 0, 0, 0, 0, 0, 0, 0, 9, 12, 0, 12, 0, 12, 9, 12, 0, 12, 12]),
  (AreaCode, 0, 0, [0, 0, 0, 0, 0, 0, 0, 0, 0, 0, 0, 0, 0, 0, 10, 13, 0, 13, 0, 13, 10, 13, 0, 13, 13]),
  (WeatherStationCode, 0, 0, [0, 0, 0, 0, 0, 0, 0, 0, 0, 0, 0, 0, 0, 0, 0, 0, 9, 14, 0, 14, 0, 14, 0, 14, 14]),
  (WeatherStationName, 0, 0, [0, 0, 0, 0, 0, 0, 0, 0, 0, 0, 0, 0, 0, 0, 0, 0, 10, 15, 0, 15, 0, 15, 0, 15, 15]),
  (MCC, 0, 0, [0, 0, 0, 0, 0, 0, 0, 0, 0, 0, 0, 0, 0, 0, 0, 0, 0, 0, 9, 16, 0, 16, 9, 16, 16]),
  (MNC, 0, 0, [0, 0, 0, 0, 0, 0, 0, 0, 0, 0, 0, 0, 0, 0, 0, 0, 0, 0, 10, 17, 0, 17, 10, 17, 17]),
  (MobileBrand, 0, 0, [0, 0, 0, 0, 0, 0, 0, 0, 0, 0, 0, 0, 0, 0, 0, 0, 0, 0, 11, 18, 0, 18, 11, 18, 18]),
  (Elevation, 0, 0, [0, 0, 0, 0, 0, 0, 0, 0, 0, 0, 0, 0, 0, 0, 0, 0, 0, 0, 0, 0, 11, 19, 0, 19, 19]),
  (UsageType, 0, 0, [0, 0, 0, 0, 0, 0, 0, 0, 0, 0, 0, 0, 0, 0, 0, 0, 0, 0, 0, 0, 0, 0, 12, 20, 20]),
  (AddressType, 0, 0, [0, 0, 0, 0, 0, 0, 0, 0, 0, 0, 0, 0, 0, 0, 0, 0, 0, 0, 0, 0, 0, 0, 0, 0, 21]),
  (Category, 0, 0, [0, 0, 0, 0, 0, 0, 0, 0, 0, 0, 0, 0, 0, 0, 0, 0, 0, 0, 0, 0, 0, 0, 0, 0, 22])]

/-- Modelled from the spec: the IP2Proxy schema matrix from db.go (product
code 2, db types 1-11), same format as `ip2locationSchema`. -/
def ip2proxySchema : List (Nat × Nat × Nat × List Nat) := [
  (CountryCode, 0, 0, [2, 3, 3, 3, 3, 3, 3, 3, 3, 3, 3]),
  (CountryName, 0, 3, [2, 3, 3, 3, 3, 3, 3, 3, 3, 3, 3]),
  (ProxyType, 0, 0, [0, 2, 2, 2, 2, 2, 2, 2, 2, 2, 2]),
  (Region, 0, 0, [0, 0, 4, 4, 4, 4, 4, 4, 4, 4, 4]),
  (City, 0, 0, [0, 0, 5, 5, 5, 5, 5, 5, 5, 5, 5]),
  (ISP, 0, 0, [0, 0, 0, 6, 6, 6, 6, 6, 6, 6, 6]),
  (Domain, 0, 0, [0, 0, 0, 0, 7, 7, 7, 7, 7, 7, 7]),
  (UsageType, 0, 0, [0, 0, 0, 0, 0, 8, 8, 8, 8, 8, 8]),
  (ASN, 0, 0, [0, 0, 0, 0, 0, 0, 9, 9, 9, 9, 9]),
  (ASfield, 0, 0, [0, 0, 0, 0, 0, 0, 10, 10, 10, 10, 10]),
  (LastSeen, 0, 0, [0, 0, 0, 0, 0, 0, 0, 11, 11, 11, 11]),
  (Threat, 0, 0, [0, 0, 0, 0, 0, 0, 0, 0, 12, 12, 12]),
  (Provider, 0, 0, [0, 0, 0, 0, 0, 0, 0, 0, 0, 0, 13])]

/-- The schema rows of a product code (empty for unknown products). -/
def productSchema (p : Nat) : List (Nat × Nat × Nat × List Nat) :=
  if p = 1 then ip2locationSchema else if p = 2 then ip2proxySchema else []

/-- Modelled from the spec: the generated `dbfds[t][p][f]` table, rebuilt
from the schema matrices by the generator's packing (`mkdbfd`); 0 when the
field is absent or any index is out of the generated array's bounds
(`dbTypeUpper = 26`, `dbProductUpper = 3`, `dbFieldUpper = 29`). -/
def dbfds (t p f : Nat) : Nat :=
  if t = 0 ∨ 26 ≤ t ∨ 3 ≤ p ∨ 29 ≤ f then 0
  else
    match (productSchema p).find? (fun e => e.1 == f) with
    | none => 0
    | some (_, ty, ptr, cols) =>
      match cols.getD (t - 1) 0 with
      | 0 => 0
      | c => mkdbfd c ptr ty

/-- Modelled from the spec: the generated `dbexpcols[t][p]` table of
expected header column counts.  The generator counts one column for IPFrom
plus one per non-shared data column; since the schema's column numbers for a
db type are contiguous from 2 and shared (`@N`-relative) columns reuse their
predecessor's number, this equals the largest column number in the type's
schema column. -/
def dbexpcols (t p : Nat) : Nat :=
  if t = 0 ∨ 26 ≤ t then 0
  else (productSchema p).foldl (fun m e => max m (e.2.2.2.getD (t - 1) 0)) 0

/-- `DBProduct.SupportsType` from db.go:
`p != 0 && t != 0 && p < dbProductUpper && t < dbTypeUpper && dbexpcols[t][p] != 0`. -/
def SupportsType (p t : Nat) : Bool :=
  p ≠ 0 && t ≠ 0 && p < 3 && t < 26 && dbexpcols t p ≠ 0

/-- The errors `New` can return. `corrupt` is the "database is corrupt"
month/day check; `corruptColumns` is the "database is corrupt or library is
buggy" column-count check (both are `Corrupt`-kind diagnostics with
different Go messages). -/
inductive NewErr where
  | io (e : Err)
  | zipped
  | corrupt
  | tooOld
  | unsupported
  | corruptColumns
deriving DecidableEq, Repr

/-- The header-field decoding of `New` (db.go lines 81-87): byte offsets per
the format's fixed layout. -/
def parseHeader (row : List Nat) : DB := {
  dbtype := row.getD 0 0
  dbcolumn := row.getD 1 0
  dbyear := row.getD 2 0
  dbmonth := row.getD 3 0
  dbday := row.getD 4 0
  ip4count := as_le_u32 (row.drop 5)
  ip4base := as_le_u32 (row.drop 9)
  ip6count := as_le_u32 (row.drop 13)
  ip6base := as_le_u32 (row.drop 17)
  ip4idx := as_le_u32 (row.drop 21)
  ip6idx := as_le_u32 (row.drop 25)
  prcode := row.getD 29 0
  prtype := row.getD 30 0
  filesize := as_le_u32 (row.drop 31) }

/-- `New` from db.go (lines 76-108): read the 64-byte header at offset 0,
decode the fields, and validate. `'P' = 80`, `'K' = 75`. -/
def New (R : Reader) : Except NewErr DB :=
  match R 0 64 with
  | (_, some e) => .error (.io e)
  | (row, none) =>
    let db : DB := parseHeader row
    if row.getD 0 0 = 80 ∧ row.getD 1 0 = 75 then .error .zipped
    else if db.dbmonth = 0 ∨ 12 < db.dbmonth ∨ db.dbday = 0 ∨ 31 < db.dbday then .error .corrupt
    else if db.dbyear < 21 then .error .tooOld
    else if !SupportsType db.prcode db.dbtype then .error .unsupported
    else if db.dbcolumn ≠ dbexpcols db.dbtype db.prcode then .error .corruptColumns
    else .ok db

/-- `Record.get` from db.go (lines 492-553): resolve the field descriptor,
compute the column's byte offset `(fd.Column() - 2) * 4` (uint32), take the
inline bytes or follow the pointer with one positional read, then parse by
storage type.  `sz` is the "maxfield size" the source computes: `1 + 0xFF`
for strings and `32 / 4` for floats.  The pointer read tolerates `io.EOF`
(`err == nil || err == io.EOF` takes `data = b[:n]`), but `err` is the
*named* return, so the tolerated `io.EOF` stays in it and is overwritten
(with `io.ErrUnexpectedEOF`) only by the final `if dt == nil` check: a
fetch that parses at EOF returns `(dt, fd, io.EOF)`.  `step` carries
`(data, err-so-far)`, with `none` data for the non-EOF early return.  The
result triple is `(dt, fd, err)` exactly as in Go (`none` for a nil
`dt`). -/
def Record.get (r : Record) (R : Reader) (f : Nat) : Option (List Nat) × Nat × Option Err :=
  match r.d with
  | none => (none, 0, none)
  | some d =>
    let fd := dbfds r.t r.p f
    if fd = 0 then (none, fd, none)
    else if 2 ≤ fdType fd then (none, fd, some .unhandledType)
    else
      let sz := if fdType fd = 0 then 1 + 0xFF else 32 / 4
      let off := (fdColumn fd + (2 ^ 32 - 2)) % 2 ^ 32 * 4 % 2 ^ 32
      let step : Option (List Nat) × Option Err :=
        if fdPtrOffset fd = 0xFF then
          let data := d.drop off
          (some (if sz < data.length then data.take sz else data), none)
        else
          let data := d.drop off
          if 4 ≤ data.length then
            match R ((as_le_u32 data + fdPtrOffset fd) % 2 ^ 32) sz with
            | (bs, none) => (some bs, none)
            | (bs, some .eof) => (some bs, some .eof)
            | (_, some e) => (none, some e)
          else (some data, none)
      match step with
      | (none, e) => (none, fd, e)
      | (some data, e0) =>
        let dt : Option (List Nat) :=
          if data.length ≠ 0 then
            if fdType fd = 0 then
              if data.getD 0 0 < data.length then some ((data.drop 1).take (data.getD 0 0))
              else none
            else
              if sz ≤ data.length then some data else none
          else none
        match dt with
        | none => (none, fd, some .unexpectedEOF)
        | some v => (some v, fd, e0)

/-- The dynamic value `Record.Get` returns (`any` in Go): a raw byte string
or a float32 represented by its IEEE-754 bit pattern (`as_f32` is a pure
reinterpretation, so the embedding keeps the 32 bits). -/
inductive GoValue where
  | str (s : List Nat)
  | f32 (bits : Nat)
deriving DecidableEq, Repr

/-- `Record.Get` from db.go. -/
def Record.Get (r : Record) (R : Reader) (f : Nat) : Option GoValue :=
  match r.get R f with
  | (some dt, fd, _) =>
    if fdType fd = 0 then some (.str dt)
    else if fdType fd = 1 then some (.f32 (as_le_u32 dt))
    else none
  | _ => none

/-- `Record.GetString` from db.go; `ff` models `strconv.FormatFloat`
(shortest round-trip decimal of the float32 bits, as a byte string). -/
def Record.GetString (ff : Nat → List Nat) (r : Record) (R : Reader) (f : Nat) :
    List Nat × Bool :=
  match r.get R f with
  | (some dt, fd, _) =>
    if fdType fd = 0 then (dt, true)
    else if fdType fd = 1 then (ff (as_le_u32 dt), true)
    else ([], false)
  | _ => ([], false)

/-- `Record.GetFloat32` from db.go; `pf` models
`strconv.ParseFloat(·, 32)` followed by the `float32` conversion, returning
the float32 bit pattern on success and `none` on a parse error. -/
def Record.GetFloat32 (pf : List Nat → Option Nat) (r : Record) (R : Reader) (f : Nat) :
    Nat × Bool :=
  match r.get R f with
  | (some dt, fd, _) =>
    if fdType fd = 0 then
      match pf dt with
      | some v => (v, true)
      | none => (0, false)
    else if fdType fd = 1 then (as_le_u32 dt, true)
    else (0, false)
  | _ => (0, false)

/-- Go strings are byte strings; this turns an ASCII Lean literal into the
byte list it denotes. -/
def ascii (s : String) : List Nat :=
  s.toUTF8.toList.map (fun b => b.toNat)

/-- `strconv.Itoa` on a Nat, as a byte string. -/
def itoa (n : Nat) : List Nat :=
  ascii (toString n)

/-- The generated `DBProduct.product` name table. -/
def productStr (p : Nat) : List Nat :=
  if p = 1 then ascii "IP2Location" else if p = 2 then ascii "IP2Proxy" else []

/-- The generated `DBProduct.prefix` table (`DB` / `PX`). -/
def productPrefixStr (p : Nat) : List Nat :=
  if p = 1 then ascii "DB" else if p = 2 then ascii "PX" else []

/-- `DBProduct.FormatType`: product prefix followed by the type number. -/
def formatTypeStr (p t : Nat) : List Nat :=
  productPrefixStr p ++ itoa t

/-- The generated `DBField.column` name table (display names / JSON keys). -/
def fieldNameStr (f : Nat) : List Nat :=
  if f = 1 then ascii "address_type"
  else if f = 2 then ascii "area_code"
  else if f = 3 then ascii "as"
  else if f = 4 then ascii "asn"
  else if f = 5 then ascii "category"
  else if f = 6 then ascii "city"
  else if f = 7 then ascii "country_code"
  else if f = 8 then ascii "country_name"
  else if f = 9 then ascii "domain"
  else if f = 10 then ascii "elevation"
  else if f = 11 then ascii "idd_code"
  else if f = 12 then ascii "isp"
  else if f = 13 then ascii "last_seen"
  else if f = 14 then ascii "latitude"
  else if f = 15 then ascii "longitude"
  else if f = 16 then ascii "mcc"
  else if f = 17 then ascii "mnc"
  else if f = 18 then ascii "mobile_brand"
  else if f = 19 then ascii "net_speed"
  else if f = 20 then ascii "provider"
  else if f = 21 then ascii "proxy_type"
  else if f = 22 then ascii "region"
  else if f = 23 then ascii "threat"
  else if f = 24 then ascii "time_zone"
  else if f = 25 then ascii "usage_type"
  else if f = 26 then ascii "weather_station_code"
  else if f = 27 then ascii "weather_station_name"
  else if f = 28 then ascii "zip_code"
  else []

/-- The `Error()` text of an embedded error (only its identity matters to
the theorems below). -/
def errString : Err → List Nat
  | .eof => ascii "EOF"
  | .unexpectedEOF => ascii "unexpected EOF"
  | .other n => ascii "error " ++ itoa n
  | .unhandledType => ascii "unhandled dbft"

/-- One field's contribution to `Record.FormatString`'s loop body (db.go
lines 354-400); `n` is the count of fields already printed. -/
def formatFieldStr (quote : List Nat → List Nat) (ff : Nat → List Nat)
    (color multiline : Bool) (r : Record) (R : Reader) (f n : Nat) : List Nat :=
  match r.get R f with
  | (dt, fd, err) =>
      (if 1 ≤ n then (if multiline then ascii "\n  " else ascii " ") else []) ++
      (if color then ascii "\x1b[35m" else []) ++
      fieldNameStr f ++
      (if color then ascii "\x1b[0m" else []) ++
      (if multiline then ascii " " else ascii "=") ++
      (match dt with
       | some v =>
         if fdType fd = 0 then (if color then ascii "\x1b[33m" else []) ++ quote v
         else if fdType fd = 1 then (if color then ascii "\x1b[32m" else []) ++ ff (as_le_u32 v)
         else []
       | none =>
         match err with
         | some e =>
           (if color then ascii "\x1b[31m" else []) ++
           ascii "<error: " ++ errString e ++ ascii ">"
         | none => []) ++
      (if color then ascii "\x1b[0m" else [])

/-- The field loop of `Record.FormatString`: `f` is the current field, `n`
the number of fields printed so far, `rem` the remaining field count; only
fields with a valid descriptor are printed (and counted), exactly as in the
Go loop. -/
def formatFieldsStr (quote : List Nat → List Nat) (ff : Nat → List Nat)
    (color multiline : Bool) (r : Record) (R : Reader) : Nat → Nat → Nat → List Nat
  | _, _, 0 => []
  | f, n, rem + 1 =>
    if fdIsValid (r.get R f).2.1 then
      formatFieldStr quote ff color multiline r R f n ++
      formatFieldsStr quote ff color multiline r R (f + 1) (n + 1) rem
    else
      formatFieldsStr quote ff color multiline r R (f + 1) n rem

/-- `Record.FormatString` from db.go (lines 331-410); `quote` models
`strconv.Quote` and `ff` models the `strconv.FormatFloat` call.  The field
loop is unrolled with an explicit printed-field counter computed from the
descriptor table (it only matters for separator placement). -/
def Record.FormatString (quote : List Nat → List Nat) (ff : Nat → List Nat)
    (color multiline : Bool) (r : Record) (R : Reader) : List Nat :=
  if !r.IsValid then []
  else
    (if color then ascii "\x1b[34m" else []) ++
    productStr r.p ++
    (if color then ascii "\x1b[0m" else []) ++
    ascii "<" ++ formatTypeStr r.p r.t ++ ascii ">" ++
    (if color then ascii "\x1b[0m" else []) ++
    (if multiline then ascii "\x7b\n  " else ascii "\x7b") ++
    formatFieldsStr quote ff color multiline r R 1 0 28 ++
    (if multiline then ascii "\n\x7d" else ascii "\x7d") ++
    (if color then ascii "\x1b[0m" else [])

/-- `Record.MarshalJSON`'s field loop (db.go lines 419-437): appends one
`"name":value` pair per present field, short-circuiting with the error from
`Record.get` exactly where the Go code returns it. -/
def marshalFields (quote : List Nat → List Nat) (ff : Nat → List Nat)
    (r : Record) (R : Reader) : Nat → Nat → Nat → Except Err (List Nat)
  | _, _, 0 => .ok []
  | f, n, rem + 1 =>
    match r.get R f with
    | (some dt, fd, _) =>
      match marshalFields quote ff r R (f + 1) (n + 1) rem with
      | .error e => .error e
      | .ok rest =>
        .ok ((if 1 ≤ n then ascii "," else []) ++
          ascii "\"" ++ fieldNameStr f ++ ascii "\"" ++ ascii ":" ++
          (if fdType fd = 0 then quote dt
           else if fdType fd = 1 then ff (as_le_u32 dt)
           else []) ++ rest)
    | (none, _, some e) => .error e
    | (none, _, none) => marshalFields quote ff r R (f + 1) n rem

/-- `Record.MarshalJSON` from db.go (lines 413-440): `null` for the invalid
record, otherwise a JSON object, propagating any `Record.get` error. -/
def Record.MarshalJSON (quote : List Nat → List Nat) (ff : Nat → List Nat)
    (r : Record) (R : Reader) : Except Err (List Nat) :=
  if !r.IsValid then .ok (ascii "null")
  else
    match marshalFields quote ff r R 1 0 28 with
    | .error e => .error e
    | .ok fields => .ok (ascii "\x7b" ++ fields ++ ascii "\x7d")

/-! ## Address-encoding helpers and concrete test fixtures -/

/-- The netip-internal form of the IPv4 address `a` — which is also its
IPv4-mapped IPv6 form `::ffff:a`, since `net/netip` stores IPv4 addresses
IPv4-mapped (`as_ip6_uint8` yields the same uint128 for both). -/
def ipv4AddrOf (a : Nat) : NetipAddr :=
  ⟨true, U128.mk 0 (0xffff00000000 + a)⟩

/-- The 6to4 form of the IPv4 address `a`: top 16 bits `0x2002`, `a` at bits
111:80 (as in the repository's own test helpers). -/
def sixtofourAddrOf (a : Nat) : NetipAddr :=
  ⟨true, U128.mk (0x2002 * 2 ^ 48 + a * 2 ^ 16) 0⟩

/-- The Teredo form of the IPv4 address `a`: top 32 bits `0x20010000`, the
bitwise inversion of `a` in the low 64 bits (`^(lo&0xffffffff)` in the
repository's test helpers, i.e. `2^64 - 1 - a` for `a < 2^32`). -/
def teredoAddrOf (a : Nat) : NetipAddr :=
  ⟨true, U128.mk (0x20010000 * 2 ^ 32) (2 ^ 64 - 1 - a)⟩

/-- A positional reader over an in-memory file (like `bytes.Reader`):
returns the available bytes, with `io.EOF` on a short read. -/
def readerOfFile (file : List Nat) : Reader := fun off n =>
  let avail := (file.drop off).take n
  if avail.length = n then (avail, none) else (avail, some .eof)

/-- A reader that always fails with an opaque i/o error. -/
def failReader : Reader := fun _ _ => ([], some (.other 7))

/-- A reader that succeeds everywhere and returns only `0xFF` bytes, so
every decoded `IPFrom` is the maximal address. -/
def allFFReader : Reader := fun _ n => (List.replicate n 0xFF, none)

/-- A tiny but fully well-formed IPv4 database file: two rows of
`colsize = 8` bytes (`IPFrom` 10 and 20, payloads `[1,0,0,0]` and
`[2,0,0,0]`), a terminator `IPFrom` of 30, and zero padding so that the
probe of the row-after-last succeeds. -/
def tinyFile : List Nat :=
  [10, 0, 0, 0, 1, 0, 0, 0, 20, 0, 0, 0, 2, 0, 0, 0, 30, 0, 0, 0] ++ List.replicate 20 0

/-- The parsed header of `tinyFile`: IP2Location DB1, two IPv4 rows at
1-based offset 1, no index, no IPv6 rows. -/
def tinyDB : DB where
  dbtype := 1
  dbcolumn := 2
  dbyear := 23
  dbmonth := 1
  dbday := 2
  ip4count := 2
  ip4base := 1
  ip6count := 0
  ip6base := 0
  ip4idx := 0
  ip6idx := 0
  prcode := 1
  prtype := 1
  filesize := 40

/-- `tinyDB` with an empty IPv4 family (`ip4count = 0`). -/
def tinyDBNoV4 : DB :=
  { tinyDB with ip4count := 0 }

/-- A valid IP2Location DB5 record: 20 row bytes (columns 2..6), with the
inline float32 `longitude` occupying the last four bytes. -/
def rec5 : Record :=
  ⟨1, 5, some [1, 2, 3, 4, 5, 6, 7, 8, 9, 10, 11, 12, 13, 14, 15, 16, 17, 18, 19, 20]⟩

/-- A valid IP2Location DB21 record whose `elevation` pointer column (column
11, bytes 36..39) holds the file offset 100. -/
def rec21 : Record :=
  ⟨1, 21, some (List.replicate 36 0 ++ [100, 0, 0, 0])⟩

/-- A file for `rec21`: at offset 100 a length-prefixed string "abc"
(a non-numeric elevation). -/
def rec21File : List Nat :=
  List.replicate 100 0 ++ [3, 97, 98, 99]

/-- A well-formed 64-byte header: IP2Location (product 1) DB11, 8 columns,
dated 2023-01-02. -/
def goodHeader : List Nat :=
  [11, 8, 23, 1, 2] ++ List.replicate 24 0 ++ [1, 1] ++ List.replicate 33 0

/-! ## File-layout vocabulary used to state the database invariants -/

/-- The `k` little-endian bytes of `n`. -/
def leBytes : Nat → Nat → List Nat
  | 0, _ => []
  | k + 1, n => n % 256 :: leBytes k (n / 256)

/-- The on-disk encoding of an `IPFrom` value for an address family: 4
little-endian bytes for IPv4, and for IPv6 the little-endian low uint64
half followed by the little-endian high half (the format's endian
asymmetry). -/
def encAddr (iplen v : Nat) : List Nat :=
  if iplen = 4 then leBytes 4 v else leBytes 8 (v % 2 ^ 64) ++ leBytes 8 (v / 2 ^ 64)

/-- A 128-bit address value as the `uint128` struct. -/
def toU128 (v : Nat) : U128 :=
  U128.mk (v / 2 ^ 64) (v % 2 ^ 64)

/-- The IPFrom column of `tinyFile` as a function of the row number
(rows 0 and 1, then the terminator). -/
def tinyIPF : Nat → Nat := fun j => if j = 0 then 10 else if j = 1 then 20 else 30

/-- The payload of each row of `tinyFile`. -/
def tinyData : Nat → List Nat := fun j => if j = 0 then [1, 0, 0, 0] else [2, 0, 0, 0]

/-! ## Claim C2: address-normalization identity -/

theorem unmap_ipv4 (a : Nat) (ha : a < 2 ^ 32) :
    unmap (ipv4AddrOf a).u = (U128.mk 0 a, 4) := by
  have h1 : (281470681743360 + a) / 4294967296 = 65535 := by omega
  have h2 : (281470681743360 + a) % 4294967296 = a := by omega
  simp [unmap, ipv4AddrOf, h1, h2]

theorem unmap_sixtofour (a : Nat) (ha : a < 2 ^ 32) :
    unmap (sixtofourAddrOf a).u = (U128.mk 0 a, 4) := by
  have h48 : (2306405959167115264 + a * 65536) / 281474976710656 = 8194 := by omega
  have h16 : (2306405959167115264 + a * 65536) / 65536 = 35192962023424 + a := by omega
  have hmod : (35192962023424 + a) % 4294967296 = a := by omega
  have hdiv2 : (a + 281470681743360) / 4294967296 = 65535 := by omega
  have hmod2 : (a + 281470681743360) % 4294967296 = a := by omega
  simp [unmap, sixtofourAddrOf, h48, h16, hmod, hdiv2, hmod2]

theorem unmap_teredo (a : Nat) (ha : a < 2 ^ 32) :
    unmap (teredoAddrOf a).u = (U128.mk 0 a, 4) := by
  have hlo : (18446744073709551615 - a) % 18446744073709551616 = 18446744073709551615 - a := by
    omega
  simp only [unmap, teredoAddrOf]
  norm_num
  rw [hlo]
  have hc : ((18446744073709551615 - (18446744073709551615 - a)) % 4294967296 +
      281470681743360) / 4294967296 = 65535 := by omega
  simp [hc]
  omega

theorem lookup_congr (db : DB) (R : Reader) (a b : NetipAddr)
    (hav : a.valid = true) (hbv : b.valid = true) (h : unmap a.u = unmap b.u) :
    DB.Lookup db R a = DB.Lookup db R b := by
  simp only [DB.Lookup, hav, hbv, h]

/-- C2: for every 32-bit IPv4 address `a`, the `unmap` normalizer sends the
netip form of `a` itself (which is its IPv4-mapped form `::ffff:a`), its
6to4 form, and its Teredo form all to the same native 4-byte address with
ip length 4, and consequently `DB.Lookup` yields the same record for all
these encodings on every database and reader. -/
theorem C2_normalization_identity (a : Nat) (ha : a < 2 ^ 32) (db : DB) (R : Reader) :
    unmap (ipv4AddrOf a).u = (U128.mk 0 a, 4) ∧
    unmap (sixtofourAddrOf a).u = (U128.mk 0 a, 4) ∧
    unmap (teredoAddrOf a).u = (U128.mk 0 a, 4) ∧
    DB.Lookup db R (ipv4AddrOf a) = DB.Lookup db R (sixtofourAddrOf a) ∧
    DB.Lookup db R (ipv4AddrOf a) = DB.Lookup db R (teredoAddrOf a) := by
  refine ⟨unmap_ipv4 a ha, unmap_sixtofour a ha, unmap_teredo a ha, ?_, ?_⟩
  · exact lookup_congr db R _ _ rfl rfl ((unmap_ipv4 a ha).trans (unmap_sixtofour a ha).symm)
  · exact lookup_congr db R _ _ rfl rfl ((unmap_ipv4 a ha).trans (unmap_teredo a ha).symm)

/-- Witness for C2 at the concrete address 8.8.8.8 on the tiny concrete
database. -/
theorem C2_normalization_identity_witness :
    0x08080808 < 2 ^ 32 ∧
    (unmap (ipv4AddrOf 0x08080808).u = (U128.mk 0 0x08080808, 4) ∧
     unmap (sixtofourAddrOf 0x08080808).u = (U128.mk 0 0x08080808, 4) ∧
     unmap (teredoAddrOf 0x08080808).u = (U128.mk 0 0x08080808, 4) ∧
     DB.Lookup tinyDB (readerOfFile tinyFile) (ipv4AddrOf 0x08080808) =
       DB.Lookup tinyDB (readerOfFile tinyFile) (sixtofourAddrOf 0x08080808) ∧
     DB.Lookup tinyDB (readerOfFile tinyFile) (ipv4AddrOf 0x08080808) =
       DB.Lookup tinyDB (readerOfFile tinyFile) (teredoAddrOf 0x08080808)) :=
  ⟨by norm_num, C2_normalization_identity 0x08080808 (by norm_num) tinyDB (readerOfFile tinyFile)⟩

/-! ## Claim C6: invalid input addresses -/

/-- C6 counterexample: an address that fails validation does not surface
any error — `DB.Lookup` on an invalid address returns the invalid-record
sentinel together with `nil` error (here even with a reader that would fail
every read), contradicting the claim that an `InvalidAddress` error is
surfaced. -/
theorem C6_invalid_address_cex :
    DB.Lookup tinyDB failReader ⟨false, U128.mk 0 0⟩ = some (Record.invalid, none) := by
  rfl

/-- C6 (amended): for every database, reader and 128-bit value, looking up
an address that fails validation returns the invalid-record sentinel and no
error; the result does not depend on the reader (no read is issued) and the
handle, being immutable, remains usable. -/
theorem C6_invalid_address_soft (db : DB) (R : Reader) (u : U128) :
    DB.Lookup db R ⟨false, u⟩ = some (Record.invalid, none) := by
  rfl

/-! ## Claim C10: total accessors on the invalid record -/

/-- C10: every accessor applied to the zero or invalid `Record` (any record
with a nil data slice) is total and issues no positional read — the results
are fixed constants, independent of the reader and of every formatting
parameter: `get` yields the zero triple, `Get` nil, `GetString` `("",
false)`, `GetFloat32` `(0, false)`, `FormatString` the empty string, and
`MarshalJSON` the JSON literal `null` — and none of these reaches a panic
branch (`Err.unhandledType` is never produced). -/
theorem C10_invalid_record_accessors (r : Record) (h : r.d = none) (R : Reader) (f : Nat)
    (pf : List Nat → Option Nat) (ff : Nat → List Nat) (quote : List Nat → List Nat)
    (color multiline : Bool) :
    r.get R f = (none, 0, none) ∧
    r.Get R f = none ∧
    Record.GetString ff r R f = ([], false) ∧
    Record.GetFloat32 pf r R f = (0, false) ∧
    Record.FormatString quote ff color multiline r R = [] ∧
    Record.MarshalJSON quote ff r R = .ok (ascii "null") := by
  obtain ⟨p, t, d⟩ := r
  simp only at h
  subst h
  refine ⟨rfl, rfl, rfl, rfl, ?_, ?_⟩
  · simp [Record.FormatString, Record.IsValid]
  · simp [Record.MarshalJSON, Record.IsValid]

/-- Witness for C10 on the zero record with concrete parameters. -/
theorem C10_invalid_record_accessors_witness :
    Record.invalid.d = none ∧
    (Record.invalid.get failReader 7 = (none, 0, none) ∧
     Record.invalid.Get failReader 7 = none ∧
     Record.GetString itoa Record.invalid failReader 7 = ([], false) ∧
     Record.GetFloat32 (fun _ => none) Record.invalid failReader 7 = (0, false) ∧
     Record.FormatString id itoa true true Record.invalid failReader = [] ∧
     Record.MarshalJSON id itoa Record.invalid failReader = .ok (ascii "null")) :=
  ⟨rfl, C10_invalid_record_accessors Record.invalid rfl failReader 7
    (fun _ => none) itoa id true true⟩

/-! ## Claim C4: open-time validation -/

/-- C4: `New` distinguishes the specified failure cases in order — a `PK`
signature gives `Zipped`; a month outside [1,12] or a day outside [1,31]
gives the corrupt-database error; a year byte below 21 gives `TooOld`; an
unsupported (product, db type) pair gives `Unsupported`; a header column
count differing from the descriptor table's expected count gives the
corrupt-columns error; and any other well-formed header yields a handle
holding the parsed header fields. -/
theorem C4_new_validation (R : Reader) (h : List Nat) (hr : R 0 64 = (h, none)) :
    (h.getD 0 0 = 80 ∧ h.getD 1 0 = 75 → New R = .error .zipped) ∧
    (¬(h.getD 0 0 = 80 ∧ h.getD 1 0 = 75) →
      (h.getD 3 0 = 0 ∨ 12 < h.getD 3 0 ∨ h.getD 4 0 = 0 ∨ 31 < h.getD 4 0) →
      New R = .error .corrupt) ∧
    (¬(h.getD 0 0 = 80 ∧ h.getD 1 0 = 75) →
      ¬(h.getD 3 0 = 0 ∨ 12 < h.getD 3 0 ∨ h.getD 4 0 = 0 ∨ 31 < h.getD 4 0) →
      h.getD 2 0 < 21 → New R = .error .tooOld) ∧
    (¬(h.getD 0 0 = 80 ∧ h.getD 1 0 = 75) →
      ¬(h.getD 3 0 = 0 ∨ 12 < h.getD 3 0 ∨ h.getD 4 0 = 0 ∨ 31 < h.getD 4 0) →
      ¬(h.getD 2 0 < 21) → SupportsType (h.getD 29 0) (h.getD 0 0) = false →
      New R = .error .unsupported) ∧
    (¬(h.getD 0 0 = 80 ∧ h.getD 1 0 = 75) →
      ¬(h.getD 3 0 = 0 ∨ 12 < h.getD 3 0 ∨ h.getD 4 0 = 0 ∨ 31 < h.getD 4 0) →
      ¬(h.getD 2 0 < 21) → SupportsType (h.getD 29 0) (h.getD 0 0) = true →
      h.getD 1 0 ≠ dbexpcols (h.getD 0 0) (h.getD 29 0) →
      New R = .error .corruptColumns) ∧
    (¬(h.getD 0 0 = 80 ∧ h.getD 1 0 = 75) →
      ¬(h.getD 3 0 = 0 ∨ 12 < h.getD 3 0 ∨ h.getD 4 0 = 0 ∨ 31 < h.getD 4 0) →
      ¬(h.getD 2 0 < 21) → SupportsType (h.getD 29 0) (h.getD 0 0) = true →
      h.getD 1 0 = dbexpcols (h.getD 0 0) (h.getD 29 0) →
      New R = .ok (parseHeader h)) := by
  refine ⟨?_, ?_, ?_, ?_, ?_, ?_⟩
  · intro h1
    simp only [List.getD_eq_getElem?_getD] at h1
    simp [New, hr, parseHeader, h1]
  · intro h1 h2
    simp only [List.getD_eq_getElem?_getD] at h1 h2
    simp [New, hr, parseHeader, h1, h2]
  · intro h1 h2 h3
    simp only [List.getD_eq_getElem?_getD] at h1 h2 h3
    simp [New, hr, parseHeader, h1, h2, h3]
  · intro h1 h2 h3 h4
    simp only [List.getD_eq_getElem?_getD] at h1 h2 h3 h4
    simp [New, hr, parseHeader, h1, h2, h3, h4]
  · intro h1 h2 h3 h4 h5
    simp only [List.getD_eq_getElem?_getD] at h1 h2 h3 h4 h5
    simp [New, hr, parseHeader, h1, h2, h3, h4, h5]
  · intro h1 h2 h3 h4 h5
    simp only [List.getD_eq_getElem?_getD] at h1 h2 h3 h4 h5
    simp [New, hr, parseHeader, h1, h2, h3, h4, h5]
    exact fun h80 hcol => h1 ⟨h80, h5.trans hcol⟩

/-- Witness for C4 on a concrete well-formed DB11 header. -/
theorem C4_new_validation_witness :
    readerOfFile goodHeader 0 64 = (goodHeader, none) ∧
    New (readerOfFile goodHeader) = .ok (parseHeader goodHeader) :=
  ⟨by decide,
   (C4_new_validation (readerOfFile goodHeader) goodHeader (by decide)).2.2.2.2.2
     (by decide) (by decide) (by decide) (by decide) (by decide)⟩

/-! ## Claim C3: inline f32 fields (code bug at the last column) -/

/-- C3 (code bug): `Record.get` computes the "maxfield size" for `f32` as
`32 / 4 = 8` bytes instead of the four bytes a 32-bit float occupies, and
its parse step demands that many bytes.  On the IP2Location DB5 record
`rec5`, `longitude` is an inline f32 descriptor in the last column (column
6), so only 4 row bytes remain at its offset 16: `get` returns no data and
`io.ErrUnexpectedEOF` instead of succeeding with bytes [16,20), and
`GetFloat32` returns `(0, false)` — while for `latitude` (column 5, not
last) the same code "succeeds" by grabbing 8 bytes, of which only the first
4 are the field.  No read is issued either way (the reader that always
fails is never consulted). -/
theorem C3_inline_f32_last_column_bug :
    fdPtrOffset (dbfds 5 1 Longitude) = 0xFF ∧
    fdType (dbfds 5 1 Longitude) = 1 ∧
    fdColumn (dbfds 5 1 Longitude) = 6 ∧
    Record.get rec5 failReader Longitude = (none, dbfds 5 1 Longitude, some .unexpectedEOF) ∧
    Record.GetFloat32 (fun _ => none) rec5 failReader Longitude = (0, false) ∧
    Record.get rec5 failReader Latitude =
      (some [13, 14, 15, 16, 17, 18, 19, 20], dbfds 5 1 Latitude, none) ∧
    Record.GetFloat32 (fun _ => none) rec5 failReader Latitude =
      (as_le_u32 [13, 14, 15, 16], true) := by
  decide

/-! ## Claim C7: empty address family (code bug: missing row-count check) -/

/-- C7 (code bug): `DB.Lookup` has no `row_count == 0` check, so an IPv4
query against a database with `ip4count = 0` still enters the binary search
with window `[0, 0]` and reads at `ip4base - 1`: with a failing reader the
read error is returned (the claim requires `None` with no error and no
read), and with readable bytes at that offset the code fabricates a record
out of data that is not an IPv4 row of this database. -/
theorem C7_empty_family_lookup_bug :
    tinyDBNoV4.ip4count = 0 ∧
    DB.Lookup tinyDBNoV4 failReader (ipv4AddrOf 15) =
      some (Record.invalid, some (.other 7)) ∧
    DB.Lookup tinyDBNoV4 (readerOfFile tinyFile) (ipv4AddrOf 15) =
      some (⟨1, 1, some [1, 0, 0, 0]⟩, none) := by
  decide

/-! ## Claim C8: string-as-float fallback -/

/-- C8 counterexample: a parse failure in the string-as-float fallback is
not surfaced as an error. `rec21`'s `elevation` string "abc" is fetched
successfully (the 256-byte probe of the 104-byte file is tolerated at
`io.EOF`, which stays in `get`'s named error); `GetFloat32` discards that
error, and with a float parser that fails on "abc" it returns `(0, false)`
— the very zero value of its `(float32, bool)` return type,
indistinguishable from the result for a field that is absent altogether
(`isp` does not exist in DB21) — and no `ParseError` is produced anywhere
in the API. -/
theorem C8_no_parse_error_cex :
    Record.get rec21 (readerOfFile rec21File) Elevation =
      (some [97, 98, 99], dbfds 21 1 Elevation, some .eof) ∧
    fdType (dbfds 21 1 Elevation) = 0 ∧
    Record.GetFloat32 (fun _ => none) rec21 (readerOfFile rec21File) Elevation = (0, false) ∧
    dbfds 21 1 ISP = 0 ∧
    Record.GetFloat32 (fun _ => none) rec21 (readerOfFile rec21File) ISP = (0, false) := by
  decide

/-- C8 (amended): `GetFloat32` on a field whose storage type is `str` does
attempt to parse the fetched string as a decimal number; a successful parse
of `v` yields `(v, true)` and a parse failure yields `(0, false)` — failure
is signalled only through the false ok-flag (which also covers absent
fields), not through an error value. -/
theorem C8_str_float_fallback (pf : List Nat → Option Nat) (r : Record) (R : Reader)
    (f : Nat) (s : List Nat) (fd : Nat) (e0 : Option Err)
    (hget : r.get R f = (some s, fd, e0)) (hty : fdType fd = 0) :
    (pf s = none → Record.GetFloat32 pf r R f = (0, false)) ∧
    (∀ v, pf s = some v → Record.GetFloat32 pf r R f = (v, true)) := by
  constructor
  · intro hpf
    simp [Record.GetFloat32, hget, hty, hpf]
  · intro v hpf
    simp [Record.GetFloat32, hget, hty, hpf]

/-- Witness for C8 (amended) on the concrete DB21 elevation record. -/
theorem C8_str_float_fallback_witness :
    Record.get rec21 (readerOfFile rec21File) Elevation =
      (some [97, 98, 99], dbfds 21 1 Elevation, some .eof) ∧
    fdType (dbfds 21 1 Elevation) = 0 ∧
    (((fun _ : List Nat => (none : Option Nat)) [97, 98, 99] = none →
       Record.GetFloat32 (fun _ => none) rec21 (readerOfFile rec21File) Elevation = (0, false)) ∧
     (∀ v, (fun _ : List Nat => (none : Option Nat)) [97, 98, 99] = some v →
       Record.GetFloat32 (fun _ => none) rec21 (readerOfFile rec21File) Elevation = (v, true))) :=
  ⟨by decide, by decide,
   C8_str_float_fallback (fun _ => none) rec21 (readerOfFile rec21File) Elevation
     [97, 98, 99] (dbfds 21 1 Elevation) (some .eof) (by decide) (by decide)⟩

end Ip2x

namespace Ip2x

theorem leBytes_length (k n : Nat) : (leBytes k n).length = k := by
  induction k generalizing n with
  | zero => rfl
  | succ k ih => simp [leBytes, ih]

theorem leBytes_append_drop (k n : Nat) (rest : List Nat) :
    (leBytes k n ++ rest).drop k = rest := by
  rw [List.drop_append_of_le_length (by simp [leBytes_length])]
  simp [leBytes_length]

theorem as_le_u32_leBytes (n : Nat) (rest : List Nat) :
    as_le_u32 (leBytes 4 n ++ rest) = n % 2 ^ 32 := by
  simp [leBytes, as_le_u32, List.getD]
  omega

theorem as_le_u64_leBytes (n : Nat) (rest : List Nat) :
    as_le_u64 (leBytes 8 n ++ rest) = n % 2 ^ 64 := by
  simp [leBytes, as_le_u64, List.getD]
  omega

theorem as_be_u128_enc (v : Nat) (hv : v < 2 ^ 128) (rest : List Nat) :
    as_be_u128 (encAddr 16 v ++ rest) = toU128 v := by
  have h1 : (encAddr 16 v ++ rest) = leBytes 8 (v % 2 ^ 64) ++ (leBytes 8 (v / 2 ^ 64) ++ rest) := by
    simp [encAddr]
  rw [as_be_u128, h1, leBytes_append_drop, as_le_u64_leBytes, as_le_u64_leBytes, toU128]
  congr 1
  · omega
  · omega

theorem decode_enc (iplen v : Nat) (hfam : iplen = 4 ∨ iplen = 16)
    (hv : v < 2 ^ (8 * iplen)) (rest : List Nat) :
    (if iplen = 4 then as_u32_u128 (as_le_u32 (encAddr iplen v ++ rest))
     else as_be_u128 (encAddr iplen v ++ rest)) = toU128 v := by
  rcases hfam with h | h <;> subst h
  · norm_num at hv ⊢
    rw [encAddr, if_pos rfl, as_le_u32_leBytes, as_u32_u128, toU128]
    congr 1 <;> omega
  · norm_num at hv ⊢
    exact as_be_u128_enc v (by omega) rest

theorem less_toU128 (a b : Nat) :
    U128.Less (toU128 a) (toU128 b) = true ↔ a < b := by
  simp [U128.Less, toU128]
  omega

theorem beq_toU128 (a b : Nat) : (toU128 a == toU128 b) = true ↔ a = b := by
  simp [toU128, U128.mk.injEq, beq_iff_eq]
  omega

theorem eq_toU128 (a b : Nat) : toU128 a = toU128 b ↔ a = b := by
  simp [toU128, U128.mk.injEq]
  omega

end Ip2x

namespace Ip2x

theorem decode_enc_nil (iplen v : Nat) (hfam : iplen = 4 ∨ iplen = 16)
    (hv : v < 2 ^ (8 * iplen)) :
    (if iplen = 4 then as_u32_u128 (as_le_u32 (encAddr iplen v))
     else as_be_u128 (encAddr iplen v)) = toU128 v := by
  rw [← List.append_nil (encAddr iplen v)]
  exact decode_enc iplen v hfam hv []

theorem ipf_mono (count : Nat) (ipf : Nat → Nat)
    (hsort : ∀ j, j < count → ipf j < ipf (j + 1)) :
    ∀ j k, j ≤ k → k ≤ count → ipf j ≤ ipf k := by
  intro j k hjk hk
  induction hjk with
  | refl => exact le_refl _
  | @step m hm ih =>
    exact le_trans (ih (by omega)) (le_of_lt (hsort m (by omega)))

theorem encAddr_length (iplen v : Nat) (hfam : iplen = 4 ∨ iplen = 16) :
    (encAddr iplen v).length = iplen := by
  rcases hfam with h | h <;> subst h <;> simp [encAddr, leBytes_length]

theorem search_finds
    (R : Reader) (ipq iplen colsize base prcode dbtype count : Nat)
    (ipf : Nat → Nat) (data : Nat → List Nat)
    (hfam : iplen = 4 ∨ iplen = 16)
    (hdlen : ∀ j, j < count → (data j).length = colsize - iplen)
    (hcs : iplen ≤ colsize)
    (hspace : ∀ j, j ≤ count → ipf j < 2 ^ (8 * iplen))
    (hrow : ∀ j, j < count →
      R (base - 1 + j * colsize) (colsize + iplen) =
        (encAddr iplen (ipf j) ++ (data j ++ encAddr iplen (ipf (j + 1))), none))
    (hsort : ∀ j, j < count → ipf j < ipf (j + 1))
    (i : Nat) (hi : i < count)
    (hin1 : ipf i ≤ ipq) (hin2 : ipq < ipf (i + 1))
    (hcount : count ≤ 2 ^ 31 - 1)
    (hbase : 1 ≤ base)
    (hoff : base - 1 + count * colsize < 2 ^ 32) :
    ∀ fuel l u, l ≤ i → i ≤ u → u ≤ count → u - l + 2 ≤ fuel →
      searchGo R (toU128 ipq) iplen colsize base prcode dbtype fuel l u =
        some ({ p := prcode, t := dbtype, d := some (data i) }, none) := by
  intro fuel
  induction fuel with
  | zero => intro l u hl hu huc hf; omega
  | succ fuel ih =>
    intro l u hl hu huc hf
    have hlu : l ≤ u := le_trans hl hu
    have hmid_eq : (l + u) % 2 ^ 32 = l + u := Nat.mod_eq_of_lt (by omega)
    simp only [searchGo]
    rw [if_pos hlu, hmid_eq]
    set mid := (l + u) / 2 with hmiddef
    clear_value mid
    have hmidl : l ≤ mid := by omega
    have hmidu : mid ≤ u := by omega
    have hmidcnt : mid < count := by omega
    have hxle : mid * colsize ≤ count * colsize :=
      Nat.mul_le_mul_right _ (le_of_lt hmidcnt)
    have hofff : (mid * colsize + base + (2 ^ 32 - 1)) % 2 ^ 32 =
        base - 1 + mid * colsize := by omega
    rw [hofff, hrow _ hmidcnt]
    have hIPFROM :
        (if iplen = 4 then
          as_u32_u128 (as_le_u32
            (encAddr iplen (ipf mid) ++ (data mid ++ encAddr iplen (ipf (mid + 1)))))
        else
          as_be_u128
            (encAddr iplen (ipf mid) ++ (data mid ++ encAddr iplen (ipf (mid + 1))))) =
        toU128 (ipf mid) :=
      decode_enc iplen (ipf mid) hfam (hspace _ (le_of_lt hmidcnt)) _
    have hdropROW :
        (encAddr iplen (ipf mid) ++ (data mid ++ encAddr iplen (ipf (mid + 1)))).drop colsize =
          encAddr iplen (ipf (mid + 1)) := by
      rw [← List.append_assoc]
      refine List.drop_left' ?_
      rw [List.length_append, encAddr_length iplen _ hfam, hdlen _ hmidcnt]
      omega
    have hIPTO :
        (if iplen = 4 then
          as_u32_u128 (as_le_u32
            ((encAddr iplen (ipf mid) ++ (data mid ++ encAddr iplen (ipf (mid + 1)))).drop colsize))
        else
          as_be_u128
            ((encAddr iplen (ipf mid) ++ (data mid ++ encAddr iplen (ipf (mid + 1)))).drop colsize)) =
        toU128 (ipf (mid + 1)) := by
      rw [hdropROW]
      exact decode_enc_nil iplen _ hfam (hspace _ hmidcnt)
    have hdata :
        ((encAddr iplen (ipf mid) ++ (data mid ++
          encAddr iplen (ipf (mid + 1)))).drop iplen).take (colsize - iplen) = data mid := by
      rw [List.drop_left' (encAddr_length iplen _ hfam)]
      rw [List.take_left' (hdlen _ hmidcnt)]
    rcases Nat.lt_trichotomy mid i with hlt | heq | hgt
    · have hfromle : ipf mid ≤ ipf i :=
        ipf_mono count ipf hsort mid i (le_of_lt hlt) (le_of_lt hi)
      have htole : ipf (mid + 1) ≤ ipf i := ipf_mono count ipf hsort (mid + 1) i hlt (le_of_lt hi)
      have hLf : U128.Less (toU128 ipq) (toU128 (ipf mid)) = false := by
        rw [← Bool.not_eq_true, less_toU128]
        omega
      have hR : (toU128 (ipf (mid + 1)) == toU128 ipq ||
          U128.Less (toU128 (ipf (mid + 1))) (toU128 ipq)) = true := by
        simp only [Bool.or_eq_true, beq_toU128, less_toU128]
        omega
      simp only [hIPFROM, hIPTO, hLf, hR, Bool.false_eq_true, if_false, if_true]
      have hm1 : (mid + 1) % 2 ^ 32 = mid + 1 := by omega
      rw [hm1]
      exact ih (mid + 1) u (by omega) hu huc (by omega)
    · subst heq
      have hLf : U128.Less (toU128 ipq) (toU128 (ipf mid)) = false := by
        rw [← Bool.not_eq_true, less_toU128]
        omega
      have hR : (toU128 (ipf (mid + 1)) == toU128 ipq ||
          U128.Less (toU128 (ipf (mid + 1))) (toU128 ipq)) = false := by
        rw [← Bool.not_eq_true, Bool.or_eq_true, beq_toU128, less_toU128]
        omega
      simp only [hIPFROM, hIPTO, hLf, hR, Bool.false_eq_true, if_false]
      rw [hdata]
    · have h1 : ipf (i + 1) ≤ ipf mid :=
        ipf_mono count ipf hsort (i + 1) mid hgt (le_of_lt hmidcnt)
      have hLt : U128.Less (toU128 ipq) (toU128 (ipf mid)) = true := by
        rw [less_toU128]
        omega
      simp only [hIPFROM, hLt, if_true]
      have hm1 : (mid + (2 ^ 32 - 1)) % 2 ^ 32 = mid - 1 := by omega
      rw [hm1]
      exact ih l (mid - 1) hl (by omega) (by omega) (by omega)

end Ip2x

namespace Ip2x

theorem as_le_u32_leBytes_nil (n : Nat) : as_le_u32 (leBytes 4 n) = n % 2 ^ 32 := by
  rw [← List.append_nil (leBytes 4 n)]
  exact as_le_u32_leBytes n []

/-- C1: for every database handle, reader and valid query address whose
normalized form `ipq` (family byte length `iplen`) is contained in row `i`
of a well-formed row array — rows at `base - 1 + j*colsize` holding
strictly ascending `IPFrom`s, each row readable together with the next
row's `IPFrom` as its exclusive upper bound, `IPFrom[i] ≤ ipq <
IPFrom[i+1]` — `DB.Lookup` returns a valid record whose data is exactly
row `i`'s non-IPFrom bytes, with no error.  `hwin` covers both paths: with
no 16-bit-prefix index the window is `[0, count]`, and with an index the
entry read for the query's prefix must bound row `i`.  Since the
containment hypothesis is two inequalities, the addresses `IPFrom[i]` and
`IPFrom[i+1] - 1` in particular both resolve to row `i`. -/
theorem C1_lookup_finds_containing_row
    (db : DB) (R : Reader) (a : NetipAddr)
    (ipq iplen cs base count idx l0 u0 i : Nat)
    (ipf : Nat → Nat) (data : Nat → List Nat)
    (hval : a.valid = true)
    (hun : unmap a.u = (toU128 ipq, iplen))
    (hfam : iplen = 4 ∨ iplen = 16)
    (hcs : cs = iplen + ((db.dbcolumn + 255) % 256) * 4)
    (hbase : base = (if iplen = 4 then db.ip4base else db.ip6base))
    (hcnt : count = (if iplen = 4 then db.ip4count else db.ip6count))
    (hidx : idx = (if iplen = 4 then db.ip4idx else db.ip6idx))
    (hdlen : ∀ j, j < count → (data j).length = cs - iplen)
    (hspace : ∀ j, j ≤ count → ipf j < 2 ^ (8 * iplen))
    (hrow : ∀ j, j < count → R (base - 1 + j * cs) (cs + iplen) =
        (encAddr iplen (ipf j) ++ (data j ++ encAddr iplen (ipf (j + 1))), none))
    (hsort : ∀ j, j < count → ipf j < ipf (j + 1))
    (hi : i < count) (hin1 : ipf i ≤ ipq) (hin2 : ipq < ipf (i + 1))
    (hcount : count ≤ 2 ^ 31 - 1) (hb1 : 1 ≤ base)
    (hoff : base - 1 + count * cs < 2 ^ 32)
    (hwin : if idx = 0 then l0 = 0 ∧ u0 = count
            else R ((idx + (if iplen = 4 then ((toU128 ipq).lo / 2 ^ 16 * 8) % 2 ^ 32
                            else ((toU128 ipq).hi / 2 ^ 48 * 8) % 2 ^ 32) +
                     (2 ^ 32 - 1)) % 2 ^ 32) 8 =
                   (leBytes 4 l0 ++ leBytes 4 u0, none) ∧
                 l0 < 2 ^ 32 ∧ u0 < 2 ^ 32 ∧
                 (idx + (if iplen = 4 then ((toU128 ipq).lo / 2 ^ 16 * 8) % 2 ^ 32
                         else ((toU128 ipq).hi / 2 ^ 48 * 8) % 2 ^ 32) +
                  (2 ^ 32 - 1)) % 2 ^ 32 ≠ 0)
    (hl0 : l0 ≤ i) (hu0 : i ≤ u0) (hu0c : u0 ≤ count) :
    DB.Lookup db R a =
      some ({ p := db.prcode, t := db.dbtype, d := some (data i) }, none) := by
  have hcsle : iplen ≤ cs := by omega
  simp only [DB.Lookup, hval, Bool.not_true, Bool.false_eq_true, if_false, hun]
  rw [← hcs, ← hbase, ← hcnt, ← hidx]
  by_cases hiz : idx = 0
  · rw [if_pos hiz] at hwin
    obtain ⟨hl00, hu00⟩ := hwin
    simp only [hiz, gt_iff_lt, lt_self_iff_false, if_false, ne_eq,
      not_true_eq_false, ite_false]
    exact search_finds R ipq iplen cs base db.prcode db.dbtype count ipf data
      hfam hdlen hcsle hspace hrow hsort i hi hin1 hin2 hcount hb1 hoff
      lookupFuel 0 count (Nat.zero_le i) (le_of_lt hi) (le_refl count)
      (by simp only [lookupFuel]; omega)
  · rw [if_neg hiz] at hwin
    obtain ⟨hread, hl32, hu32, hoff0⟩ := hwin
    have hpos : 0 < idx := Nat.pos_of_ne_zero hiz
    simp only [hpos, if_true, gt_iff_lt]
    rw [if_pos hoff0, hread]
    dsimp only
    have h1 : as_le_u32 (leBytes 4 l0 ++ leBytes 4 u0) = l0 := by
      rw [as_le_u32_leBytes]
      omega
    have h2 : as_le_u32 ((leBytes 4 l0 ++ leBytes 4 u0).drop 4) = u0 := by
      rw [leBytes_append_drop, as_le_u32_leBytes_nil]
      omega
    rw [h1, h2]
    exact search_finds R ipq iplen cs base db.prcode db.dbtype count ipf data
      hfam hdlen hcsle hspace hrow hsort i hi hin1 hin2 hcount hb1 hoff
      lookupFuel l0 u0 hl0 hu0 hu0c (by simp only [lookupFuel]; omega)

end Ip2x

namespace Ip2x

theorem searchGo_exit (R : Reader) (ip : U128) (iplen colsize base p t : Nat) :
    ∀ fuel l u, 1 ≤ fuel → u < l →
      searchGo R ip iplen colsize base p t fuel l u = some (Record.invalid, none) := by
  intro fuel l u hf hul
  cases fuel with
  | zero => omega
  | succ f => rw [searchGo, if_neg (by omega)]

theorem searchGo_mono (R : Reader) (ip : U128) (iplen colsize base p t : Nat) :
    ∀ fuel fuel' l u x, searchGo R ip iplen colsize base p t fuel l u = some x →
      fuel ≤ fuel' → searchGo R ip iplen colsize base p t fuel' l u = some x := by
  intro fuel
  induction fuel with
  | zero =>
    intro fuel' l u x h
    rw [searchGo] at h
    exact absurd h (by simp)
  | succ f ih =>
    intro fuel' l u x h hle
    obtain ⟨f', rfl⟩ : ∃ f', fuel' = f' + 1 := ⟨fuel' - 1, by omega⟩
    simp only [searchGo] at h ⊢
    by_cases hlu : l ≤ u
    · rw [if_pos hlu] at h ⊢
      rcases hR : R ((((l + u) % 2 ^ 32 / 2) * colsize + base + (2 ^ 32 - 1)) % 2 ^ 32)
          (colsize + iplen) with ⟨bs, e⟩
      rw [hR] at h
      rcases e with _ | e
      · dsimp only at h ⊢
        cases hb1 : U128.Less ip
            (if iplen = 4 then as_u32_u128 (as_le_u32 bs) else as_be_u128 bs) with
        | true =>
          rw [hb1] at h
          rw [if_pos rfl] at h ⊢
          exact ih _ _ _ _ h (by omega)
        | false =>
          rw [hb1] at h
          rw [if_neg Bool.false_ne_true] at h ⊢
          cases hb2 : ((if iplen = 4 then as_u32_u128 (as_le_u32 (bs.drop colsize))
              else as_be_u128 (bs.drop colsize)) == ip ||
              U128.Less (if iplen = 4 then as_u32_u128 (as_le_u32 (bs.drop colsize))
              else as_be_u128 (bs.drop colsize)) ip) with
          | true =>
            rw [hb2] at h
            rw [if_pos rfl] at h ⊢
            exact ih _ _ _ _ h (by omega)
          | false =>
            rw [hb2] at h
            rw [if_neg Bool.false_ne_true] at h ⊢
            exact h
      · dsimp only at h ⊢
        exact h
    · rw [if_neg hlu] at h ⊢
      exact h

end Ip2x

namespace Ip2x

theorem search_bounded
    (R : Reader) (ip : U128) (iplen colsize base prcode dbtype : Nat)
    (hbase : 1 ≤ base) (hbase2 : base ≤ 2 ^ 32)
    (h0 : ∀ bs, R (base - 1) (colsize + iplen) = (bs, none) →
      U128.Less ip (if iplen = 4 then as_u32_u128 (as_le_u32 bs) else as_be_u128 bs) = false) :
    ∀ k l u fuel, u ≤ 2 ^ 31 - 1 → u + 1 - l ≤ 2 ^ k → k + 2 ≤ fuel →
      searchGo R ip iplen colsize base prcode dbtype fuel l u ≠ none := by
  intro k
  induction k with
  | zero =>
    intro l u fuel hu hw hf
    obtain ⟨f1, rfl⟩ : ∃ f1, fuel = f1 + 1 := ⟨fuel - 1, by omega⟩
    simp only [searchGo]
    by_cases hlu : l ≤ u
    · rw [if_pos hlu]
      have hleq : l = u := by omega
      have hmod : (l + u) % 2 ^ 32 = l + u := Nat.mod_eq_of_lt (by omega)
      rw [hmod]
      rcases hR : R (((l + u) / 2 * colsize + base + (2 ^ 32 - 1)) % 2 ^ 32) (colsize + iplen)
        with ⟨bs, e⟩
      rcases e with _ | e
      · dsimp only
        cases hb1 : U128.Less ip
            (if iplen = 4 then as_u32_u128 (as_le_u32 bs) else as_be_u128 bs) with
        | true =>
          rw [if_pos rfl]
          have hmidne : (l + u) / 2 ≠ 0 := by
            intro hm
            have hoffeq : ((l + u) / 2 * colsize + base + (2 ^ 32 - 1)) % 2 ^ 32 = base - 1 := by
              rw [hm, Nat.zero_mul]
              omega
            rw [hoffeq] at hR
            have hno := h0 bs hR
            rw [hb1] at hno
            exact absurd hno (by decide)
          have hupd : ((l + u) / 2 + (2 ^ 32 - 1)) % 2 ^ 32 = (l + u) / 2 - 1 := by omega
          rw [hupd,
            searchGo_exit R ip iplen colsize base prcode dbtype f1 l ((l + u) / 2 - 1)
              (by omega) (by omega)]
          simp
        | false =>
          rw [if_neg Bool.false_ne_true]
          cases hb2 : ((if iplen = 4 then as_u32_u128 (as_le_u32 (bs.drop colsize))
              else as_be_u128 (bs.drop colsize)) == ip ||
              U128.Less (if iplen = 4 then as_u32_u128 (as_le_u32 (bs.drop colsize))
              else as_be_u128 (bs.drop colsize)) ip) with
          | true =>
            rw [if_pos rfl]
            have hupd : ((l + u) / 2 + 1) % 2 ^ 32 = (l + u) / 2 + 1 := by omega
            rw [hupd,
              searchGo_exit R ip iplen colsize base prcode dbtype f1 ((l + u) / 2 + 1) u
                (by omega) (by omega)]
            simp
          | false =>
            rw [if_neg Bool.false_ne_true]
            simp
      · dsimp only
        simp
    · rw [if_neg hlu]
      simp
  | succ k ih =>
    intro l u fuel hu hw hf
    obtain ⟨f1, rfl⟩ : ∃ f1, fuel = f1 + 1 := ⟨fuel - 1, by omega⟩
    have hpow : 2 ^ (k + 1) = 2 * 2 ^ k := by ring
    have hpow1 : 1 ≤ 2 ^ k := Nat.one_le_two_pow
    simp only [searchGo]
    by_cases hlu : l ≤ u
    · rw [if_pos hlu]
      have hmod : (l + u) % 2 ^ 32 = l + u := Nat.mod_eq_of_lt (by omega)
      rw [hmod]
      rcases hR : R (((l + u) / 2 * colsize + base + (2 ^ 32 - 1)) % 2 ^ 32) (colsize + iplen)
        with ⟨bs, e⟩
      rcases e with _ | e
      · dsimp only
        cases hb1 : U128.Less ip
            (if iplen = 4 then as_u32_u128 (as_le_u32 bs) else as_be_u128 bs) with
        | true =>
          rw [if_pos rfl]
          have hmidne : (l + u) / 2 ≠ 0 := by
            intro hm
            have hoffeq : ((l + u) / 2 * colsize + base + (2 ^ 32 - 1)) % 2 ^ 32 = base - 1 := by
              rw [hm, Nat.zero_mul]
              omega
            rw [hoffeq] at hR
            have hno := h0 bs hR
            rw [hb1] at hno
            exact absurd hno (by decide)
          have hupd : ((l + u) / 2 + (2 ^ 32 - 1)) % 2 ^ 32 = (l + u) / 2 - 1 := by omega
          rw [hupd]
          exact ih l ((l + u) / 2 - 1) f1 (by omega) (by omega) (by omega)
        | false =>
          rw [if_neg Bool.false_ne_true]
          cases hb2 : ((if iplen = 4 then as_u32_u128 (as_le_u32 (bs.drop colsize))
              else as_be_u128 (bs.drop colsize)) == ip ||
              U128.Less (if iplen = 4 then as_u32_u128 (as_le_u32 (bs.drop colsize))
              else as_be_u128 (bs.drop colsize)) ip) with
          | true =>
            rw [if_pos rfl]
            have hupd : ((l + u) / 2 + 1) % 2 ^ 32 = (l + u) / 2 + 1 := by omega
            rw [hupd]
            exact ih ((l + u) / 2 + 1) u f1 (by omega) (by omega) (by omega)
          | false =>
            rw [if_neg Bool.false_ne_true]
            simp
      · dsimp only
        simp
    · rw [if_neg hlu]
      simp

end Ip2x

namespace Ip2x

end Ip2x

namespace Ip2x

end Ip2x

namespace Ip2x

/-- Witness for C1 on `tinyFile`: address 15 lies in row 0
(`10 ≤ 15 < 20`), and `Lookup` returns row 0's payload. -/
theorem C1_lookup_finds_containing_row_witness :
    DB.Lookup tinyDB (readerOfFile tinyFile) (ipv4AddrOf 15) =
      some ({ p := 1, t := 1, d := some [1, 0, 0, 0] }, none) :=
  C1_lookup_finds_containing_row tinyDB (readerOfFile tinyFile) (ipv4AddrOf 15)
    15 4 8 1 2 0 0 2 0 tinyIPF tinyData
    (by decide) (by decide) (Or.inl rfl) (by decide) (by decide) (by decide) (by decide)
    (by intro j hj; interval_cases j <;> decide)
    (by intro j hj; interval_cases j <;> decide)
    (by intro j hj; interval_cases j <;> decide)
    (by intro j hj; interval_cases j <;> decide)
    (by decide) (by decide) (by decide) (by decide) (by decide) (by decide)
    (by decide) (by decide) (by decide) (by decide)

end Ip2x

namespace Ip2x

/-- C9 (amended): on the no-index path, when the window is bounded by
`2^31 - 1` and the row-0 probe is well behaved (`h0`: a successful read at
`base - 1` never decodes an `IPFrom` strictly above the query address — in
particular whenever row 0 holds the array minimum and the query is at or
above it), the binary-search loop finishes within `log2(count+1) + 3`
iterations, i.e. `O(log N)` row reads: the search run with that little fuel
already terminates, and `DB.Lookup` (which runs it with `lookupFuel`)
returns exactly its result.  The claim's "for every reader" part is false:
without `h0` the `upper = mid - 1` uint32 wrap at `mid = 0` can make the
loop diverge — see `C9_lookup_nontermination_cex`. -/
theorem C9_lookup_log_bound
    (db : DB) (R : Reader) (a : NetipAddr)
    (ip : U128) (iplen cs base count : Nat)
    (hval : a.valid = true)
    (hun : unmap a.u = (ip, iplen))
    (hcs : cs = iplen + ((db.dbcolumn + 255) % 256) * 4)
    (hbase : base = (if iplen = 4 then db.ip4base else db.ip6base))
    (hcnt : count = (if iplen = 4 then db.ip4count else db.ip6count))
    (hidx0 : (if iplen = 4 then db.ip4idx else db.ip6idx) = 0)
    (hb1 : 1 ≤ base) (hb2 : base ≤ 2 ^ 32)
    (hcount : count ≤ 2 ^ 31 - 1)
    (h0 : ∀ bs, R (base - 1) (cs + iplen) = (bs, none) →
      U128.Less ip (if iplen = 4 then as_u32_u128 (as_le_u32 bs) else as_be_u128 bs) = false) :
    searchGo R ip iplen cs base db.prcode db.dbtype (Nat.log2 (count + 1) + 3) 0 count ≠ none ∧
    DB.Lookup db R a =
      searchGo R ip iplen cs base db.prcode db.dbtype (Nat.log2 (count + 1) + 3) 0 count := by
  have hlt : count + 1 < 2 ^ (Nat.log2 (count + 1) + 1) := by
    rw [Nat.log2_eq_log_two]
    exact Nat.lt_pow_succ_log_self (by norm_num) _
  have hb := search_bounded R ip iplen cs base db.prcode db.dbtype hb1 hb2 h0
    (Nat.log2 (count + 1) + 1) 0 count (Nat.log2 (count + 1) + 3) hcount (by omega) (by omega)
  refine ⟨hb, ?_⟩
  obtain ⟨x, hx⟩ := Option.ne_none_iff_exists'.mp hb
  have hlog := Nat.log2_le_self (count + 1)
  have hL : searchGo R ip iplen cs base db.prcode db.dbtype lookupFuel 0 count = some x :=
    searchGo_mono R ip iplen cs base db.prcode db.dbtype _ lookupFuel 0 count x hx
      (by simp only [lookupFuel]; omega)
  simp only [DB.Lookup, hval, Bool.not_true, Bool.false_eq_true, if_false, hun]
  rw [← hcs, ← hbase, ← hcnt, hidx0]
  simp only [gt_iff_lt, lt_self_iff_false, if_false, ne_eq, not_true_eq_false, ite_false]
  rw [hL, hx]

/-- Witness for C9 (amended) on `tinyFile`: the search for address 15 over
the 2-row window terminates within `log2 3 + 3 = 4` iterations and agrees
with `Lookup`. -/
theorem C9_lookup_log_bound_witness :
    searchGo (readerOfFile tinyFile) (toU128 15) 4 8 1 tinyDB.prcode tinyDB.dbtype
        (Nat.log2 (2 + 1) + 3) 0 2 ≠ none ∧
    DB.Lookup tinyDB (readerOfFile tinyFile) (ipv4AddrOf 15) =
      searchGo (readerOfFile tinyFile) (toU128 15) 4 8 1 tinyDB.prcode tinyDB.dbtype
        (Nat.log2 (2 + 1) + 3) 0 2 :=
  C9_lookup_log_bound tinyDB (readerOfFile tinyFile) (ipv4AddrOf 15) (toU128 15) 4 8 1 2
    (by decide) (by decide) (by decide) (by decide) (by decide) (by decide)
    (by decide) (by decide) (by decide)
    (by
      intro bs hb
      rw [show readerOfFile tinyFile (1 - 1) (8 + 4) =
          ([10, 0, 0, 0, 1, 0, 0, 0, 20, 0, 0, 0], none) from by decide] at hb
      simp only [Prod.mk.injEq] at hb
      obtain ⟨h1, -⟩ := hb
      subst h1
      decide)

/-- With every row decoding `IPFrom = 0xFFFFFFFF`, the search for address 5
never exits: `lower` stays 0, so `lower ≤ upper` holds after every
`upper = mid - 1` update (wrapping to `2^32 - 1` at `mid = 0`), and the
loop exhausts any fuel. -/
theorem searchGo_allFF_diverges :
    ∀ fuel u, searchGo allFFReader (U128.mk 0 5) 4 8 1 1 1 fuel 0 u = none := by
  intro fuel
  induction fuel with
  | zero => intro u; rw [searchGo]
  | succ f ih =>
    intro u
    have hR : ∀ off, allFFReader off (8 + 4) = (List.replicate 12 0xFF, none) := fun _ => rfl
    have hless : U128.Less (U128.mk 0 5)
        (as_u32_u128 (as_le_u32 (List.replicate 12 0xFF))) = true := by decide
    simp only [searchGo, hR, hless, if_pos (Nat.zero_le u), if_true]
    exact ih _

/-- On the no-index path (`ip4idx`/`ip6idx` zero for the query's family),
`DB.Lookup` is exactly the binary search over the window `[0, count]`. -/
theorem lookup_unfold_noidx
    (db : DB) (R : Reader) (a : NetipAddr)
    (ip : U128) (iplen cs base count : Nat)
    (hval : a.valid = true)
    (hun : unmap a.u = (ip, iplen))
    (hcs : cs = iplen + ((db.dbcolumn + 255) % 256) * 4)
    (hbase : base = (if iplen = 4 then db.ip4base else db.ip6base))
    (hcnt : count = (if iplen = 4 then db.ip4count else db.ip6count))
    (hidx0 : (if iplen = 4 then db.ip4idx else db.ip6idx) = 0) :
    DB.Lookup db R a =
      searchGo R ip iplen cs base db.prcode db.dbtype lookupFuel 0 count := by
  simp only [DB.Lookup, hval, Bool.not_true, Bool.false_eq_true, if_false, hun]
  rw [← hcs, ← hbase, ← hcnt, hidx0]
  simp only [gt_iff_lt, lt_self_iff_false, if_false, ne_eq, not_true_eq_false, ite_false]

/-- C9 counterexample: a reader for which the query on `tinyDB`'s header
never terminates (`DB.Lookup = none` is the fueled model's rendering of the
Go loop diverging): every probe decodes the maximal `IPFrom`, so the search
keeps halving towards 0 and at `mid = 0` the uint32 `upper = mid - 1` wraps
to `2^32 - 1` with `lower` still 0, forever re-entering `lower ≤ upper`.
The claim's `O(log N)`-reads-for-every-reader bound fails. -/
theorem C9_lookup_nontermination_cex :
    DB.Lookup tinyDB allFFReader (ipv4AddrOf 5) = none := by
  rw [lookup_unfold_noidx tinyDB allFFReader (ipv4AddrOf 5) (U128.mk 0 5) 4 8 1 2
    (by decide) (by decide) (by decide) (by decide) (by decide) (by decide)]
  exact searchGo_allFF_diverges lookupFuel 2

end Ip2x

namespace Ip2x

end Ip2x
